import Mathlib

/-!
Shallow embedding of the Hugo CMS companion application (`app.py`) and proofs
about the specification claims.

The development has three layers:

* character-level models of the Python string operations used by the
  front-matter patcher (`str.split`, `str.strip`, `str.replace`, ...);
* the front-matter format-preserving patcher `preserve_frontmatter_format`
  (app.py lines 247-348), translated line by line;
* the state-holding glue operations (`build_hugo_site`, `setup_git_repo`,
  `commit_and_push_changes`, cache clearing, the admin HTTP handlers and the
  file watcher), modelled as pure state transformers over the module-level
  `config` dictionary, with the fallible third-party calls (GitPython,
  `subprocess.run`, the file system) supplied as oracle parameters whose
  `.error` case is the stringified exception the Python code would catch.
-/

namespace HugoCMS

/-- Character lists stand for Python `str` values. -/
abbrev Chars := List Char

/-- Python whitespace test used by `str.strip` / `str.lstrip` (ASCII range). -/
def pyIsSpace (c : Char) : Bool :=
  c == ' ' || c == '\t' || c == '\n' || c == '\r' || c == '\x0b' || c == '\x0c'

/-- Drop matching characters from the right end of a list. -/
def dropRightWhile (p : Char → Bool) (l : Chars) : Chars :=
  (l.reverse.dropWhile p).reverse

/-- Python `s.strip()`. -/
def pyStrip (l : Chars) : Chars :=
  dropRightWhile pyIsSpace (l.dropWhile pyIsSpace)

/-- Python `s.strip(c)` for the double-quote character: remove every leading and
trailing double quote. -/
def pyStripQuotes (l : Chars) : Chars :=
  dropRightWhile (· == '"') (l.dropWhile (· == '"'))

/-- Python `s.rstrip(c)` for the newline character. -/
def rstripNl (l : Chars) : Chars :=
  dropRightWhile (· == '\n') l

/-- Python `needle in hay` (substring test). -/
def containsSub (needle : Chars) : Chars → Bool
  | [] => needle.isEmpty
  | c :: rest => needle.isPrefixOf (c :: rest) || containsSub needle rest

/-- Split at the first occurrence of `sep`: the text before it and the text
after it, or `none` when `sep` does not occur. -/
def splitFirst (sep : Chars) : Chars → Option (Chars × Chars)
  | [] => if sep.isEmpty then some ([], []) else none
  | c :: rest =>
    if sep.isPrefixOf (c :: rest) then some ([], (c :: rest).drop sep.length)
    else
      match splitFirst sep rest with
      | none => none
      | some (a, b) => some (c :: a, b)

/-- Python `s.split(sep, 2)` for a non-empty separator. -/
def pySplit2 (sep s : Chars) : List Chars :=
  match splitFirst sep s with
  | none => [s]
  | some (a, r1) =>
    match splitFirst sep r1 with
    | none => [a, r1]
    | some (b, r2) => [a, b, r2]

/-- Python `s.split(c)` for the newline character (keeps empty pieces). -/
def splitNl : Chars → List Chars
  | [] => [[]]
  | c :: rest =>
    if c = '\n' then [] :: splitNl rest
    else
      match splitNl rest with
      | [] => [[c]]
      | h :: t => (c :: h) :: t

/-- Python `s.replace(a, b)` for a = CR LF and b = LF (left-to-right,
non-overlapping). -/
def replCRLF : Chars → Chars
  | '\r' :: '\n' :: rest => '\n' :: replCRLF rest
  | c :: rest => c :: replCRLF rest
  | [] => []

/-- The newline normalization applied by app.py lines 255 and 337: first
replace every CR LF with LF, then replace every remaining CR with LF. -/
def pyNorm (l : Chars) : Chars :=
  (replCRLF l).map fun c => if c = '\r' then '\n' else c

/-- Python `sep.join(...)` for the newline separator. -/
def joinNl (ls : List Chars) : Chars :=
  List.intercalate ['\n'] ls

/-- Python `s.endswith(c)` for the newline character. -/
def lastIsNl (l : Chars) : Bool :=
  l.getLast? == some '\n'

/-! ## The front-matter patcher (app.py lines 247-348) -/

/-- `line.split(':', 1)[0].strip()` — the key of a front-matter line
(app.py line 281). -/
def keyOf (line : Chars) : Chars :=
  pyStrip (line.takeWhile (· != ':'))

/-- `line.split(':', 1)[1]` — everything after the first colon (line 284). -/
def valuePartOf (line : Chars) : Chars :=
  (line.dropWhile (· != ':')).drop 1

/-- Lookup in the `new_frontmatter` dictionary (keys are unique, values are the
strings arriving from the HTML form). -/
def fmLookup : List (Chars × Chars) → Chars → Option Chars
  | [], _ => none
  | (k', v) :: rest, k => if k' = k then some v else fmLookup rest k

/-- Spacing after the colon (lines 287-291): the original run of whitespace
when the value part has any non-whitespace character, one space otherwise. -/
def spacingOf (vp : Chars) : Chars :=
  if (vp.dropWhile pyIsSpace).isEmpty then [' '] else vp.takeWhile pyIsSpace

/-- The value written for a key present in both the original front matter and
the new mapping: the date-preservation adjustment (lines 295-303) followed by
the quoting-style adjustment (lines 305-309).  `origKeys` is the key list of
`frontmatter.load(file_path).metadata`. -/
def renderValue (origKeys : List Chars) (key vp nv0 : Chars) : Chars :=
  let nv :=
    if key == "date".data && origKeys.contains key then
      let odv := pyStripQuotes (pyStrip vp)
      if decide (odv.length ≤ 10) && containsSub "GMT".data nv0 then odv else nv0
    else nv0
  if vp.contains '"' && !(nv.head? == some '"' && nv.getLast? == some '"') then
    '"' :: (nv ++ ['"'])
  else if !vp.contains '"' && (nv.head? == some '"' && nv.getLast? == some '"') then
    (nv.drop 1).dropLast
  else nv

/-- One line of the original front matter (lines 279-316); `none` means the
line is dropped. -/
def processFmLine (origKeys : List Chars) (fm : List (Chars × Chars))
    (line : Chars) : Option Chars :=
  if line.contains ':' then
    let key := keyOf line
    match fmLookup fm key with
    | some nv =>
      some (key ++ ':' :: (spacingOf (valuePartOf line) ++
        renderValue origKeys key (valuePartOf line) nv))
    | none => some line
  else if (pyStrip line).isEmpty then none
  else some line

/-- Serialization of a value for a key that is new to the front matter
(lines 321-326): form values are strings, so any value that is not a pure
digit string is double-quoted. -/
def appendValue (v : Chars) : Chars :=
  if !v.isEmpty && v.all (·.isDigit) then v else '"' :: (v ++ ['"'])

/-- Lines appended for keys of the new mapping that are absent from the
original parsed metadata (lines 318-326).  Python iterates a set difference
here; the model iterates in mapping order. -/
def appendedLines (origKeys : List Chars) (fm : List (Chars × Chars)) :
    List Chars :=
  (fm.filter fun kv => !origKeys.contains kv.1).map fun kv =>
    kv.1 ++ ':' :: ' ' :: appendValue kv.2

/-- The reconstructed front-matter lines of the format-preserving path. -/
def codeFmLines (origKeys : List Chars) (fm : List (Chars × Chars))
    (fmRaw : Chars) : List Chars :=
  (splitNl fmRaw).filterMap (processFmLine origKeys fm) ++
    appendedLines origKeys fm

/-- The front-matter delimiter line. -/
def marker : Chars := "---\n".data

/-- Reassembly of the patched file (lines 328-339): put the delimiters back,
drop trailing newlines when the original file had no final newline, then
normalize line endings. -/
def assemble (origContent : Chars) (fmLines : List Chars) (nc : Chars) :
    Chars :=
  let res := marker ++ joinNl fmLines ++ "\n---\n\n".data ++ nc
  let res := if lastIsNl origContent then res else rstripNl res
  pyNorm res

/-- `parts[1]` of `original_content.split('---\n', 2)` (line 264). -/
def fmRawOf (orig : Chars) : Chars :=
  (pySplit2 marker orig).getD 1 []

/-- The format-preserving path (lines 261-339) for an original file that
starts with the marker and splits into at least three parts. -/
def preservePath (orig : Chars) (origKeys : List Chars)
    (fm : List (Chars × Chars)) (nc : Chars) : Chars :=
  assemble orig (codeFmLines origKeys fm (fmRawOf orig)) nc

/-- Modelled from the spec: the default serialization
`frontmatter.dumps(frontmatter.Post(new_content, **new_frontmatter))` produced
by the third-party `python-frontmatter` library, which is not part of this
repository.  Only its role as the fallback result matters to the claims. -/
def frontmatterDumps (fm : List (Chars × Chars)) (content : Chars) : Chars :=
  marker ++ joinNl (fm.map fun kv => kv.1 ++ ':' :: ' ' :: kv.2) ++
    "\n---\n\n".data ++ content

/-- The fallback of lines 341-348.  `frontmatter.Post(new_content,
**new_frontmatter)` raises `TypeError` when the mapping has a key named
`content`, because that keyword collides with the constructor's positional
`content` parameter; the `except` handler then re-raises from its own `Post`
call, so the exception escapes — modelled by `.error ()`. -/
def fallbackDump (fm : List (Chars × Chars)) (content : Chars) :
    Except Unit Chars :=
  if fm.any (fun kv => kv.1 == "content".data) then .error ()
  else .ok (frontmatterDumps fm content)

/-- app.py lines 247-348.  `origContent?` is the text read from `file_path`
(`none`: the `open`/`read` raised, e.g. the file does not exist).
`origKeys?` is the metadata key list of `frontmatter.load(file_path)`
(`none`: the third-party parse raised).  The `.error` result models an
exception escaping the function. -/
def preserve_frontmatter_format (origContent? : Option Chars)
    (origKeys? : Option (List Chars)) (fm : List (Chars × Chars))
    (newContent : Chars) : Except Unit Chars :=
  match origContent? with
  | none => fallbackDump fm newContent
  | some orig =>
    let nc := pyNorm newContent
    match origKeys? with
    | none => fallbackDump fm nc
    | some origKeys =>
      if marker.isPrefixOf orig ∧ 3 ≤ (pySplit2 marker orig).length then
        .ok (preservePath orig origKeys fm nc)
      else fallbackDump fm nc

/-! ## Application state and the glue operations -/

/-- Python `s.startswith(t)` on `str` values. -/
def strStartsWith (s t : String) : Bool :=
  t.data.isPrefixOf s.data

/-- Python `s.endswith(t)` on `str` values. -/
def strEndsWith (s t : String) : Bool :=
  t.data.reverse.isPrefixOf s.data.reverse

/-- Python `t in s` on `str` values. -/
def strContains (s t : String) : Bool :=
  containsSub t.data s.data

/-- `posixpath.join` for the path shapes used in app.py: an absolute second
component discards the first. -/
def osJoin (a b : String) : String :=
  if strStartsWith b "/" then b
  else if a = "" then b
  else if strEndsWith a "/" then a ++ b
  else a ++ "/" ++ b

/-- The module-level `config` dictionary (app.py lines 29-38). -/
structure Config where
  hugo_repo_path : Option String
  hugo_site_built : Bool
  hugo_public_dir : Option String
  git_repo_url : Option String
  git_branch : String
  git_token : Option String
  working_dir : String
deriving DecidableEq

/-- The `config` defaults (lines 29-38) without environment overrides. -/
def initialConfig : Config :=
  { hugo_repo_path := none, hugo_site_built := false, hugo_public_dir := none,
    git_repo_url := none, git_branch := "main", git_token := none,
    working_dir := "/tmp/hugo-cms-work" }

/-- Python truthiness of an optional string: `None` and the empty string are
falsy. -/
def falsyStr : Option String → Bool
  | none => true
  | some s => s == ""

/-- Environment of one `build_hugo_site` call.  `hugoRun` models
`subprocess.run(['hugo'], capture_output=True, text=True)` together with the
surrounding `os.chdir` calls: `.error` is the stringified exception of the
`try` block, `.ok (returncode, stdout, stderr)` a completed process. -/
structure BuildEnv where
  pathExists : String → Bool
  hugoRun : Except String (Int × String × String)

/-- app.py lines 161-197.  Returns the updated `config` and the
`(success, message)` pair. -/
def build_hugo_site (cfg : Config) (env : BuildEnv) : Config × Bool × String :=
  if falsyStr cfg.hugo_repo_path then
    (cfg, false, "No Hugo repository path configured")
  else
    let p := cfg.hugo_repo_path.getD ""
    if !env.pathExists p then
      (cfg, false, "Hugo repository path does not exist: " ++ p)
    else
      match env.hugoRun with
      | .error e => (cfg, false, "Build error: " ++ e)
      | .ok (rc, _, err) =>
        if rc ≠ 0 then (cfg, false, "Hugo build failed: " ++ err)
        else
          ({ cfg with
              hugo_public_dir := some (osJoin p "public"),
              hugo_site_built := true },
            true, "Hugo site built successfully")

/-- Hugo configuration file names accepted by `validate_hugo_site`
(app.py line 65). -/
def hugoConfigFiles : List String :=
  ["config.toml", "config.yaml", "config.yml", "hugo.toml", "hugo.yaml",
    "hugo.yml"]

/-- app.py lines 60-75. -/
def validate_hugo_site (repoPath : String) (pathExists : String → Bool) :
    Bool × String :=
  if !pathExists repoPath then (false, "Repository path does not exist")
  else if !hugoConfigFiles.any (fun f => pathExists (osJoin repoPath f)) then
    (false, "No Hugo configuration file found")
  else if !pathExists (osJoin repoPath "content") then
    (false, "No content directory found")
  else (true, "Valid Hugo site")

/-- Environment of one `setup_git_repo` call.  `syncResult` models
`os.makedirs` plus the GitPython pull-or-clone of lines 99-119: `.error` is
the stringified exception. -/
structure GitEnv where
  pathExists : String → Bool
  syncResult : Except String Unit

/-- app.py lines 89-132. -/
def setup_git_repo (cfg : Config) (env : GitEnv) : Config × Bool × String :=
  if falsyStr cfg.git_repo_url then
    (cfg, false, "No Git repository URL configured")
  else
    match env.syncResult with
    | .error e => (cfg, false, "Git setup error: " ++ e)
    | .ok () =>
      let repoDir := osJoin cfg.working_dir "repo"
      let cfg' := { cfg with hugo_repo_path := some repoDir }
      let vm := validate_hugo_site repoDir env.pathExists
      if !vm.1 then (cfg', false, "Invalid Hugo site: " ++ vm.2)
      else (cfg', true, "Git repository setup successfully")

/-- Outcome of the GitPython calls of `commit_and_push_changes`. -/
inductive CommitOutcome
  | notDirty
  | pushed
deriving DecidableEq

/-- Environment of one `commit_and_push_changes` call: `commitResult` models
repository open, dirty check, add, commit and push (lines 140-154). -/
structure PushEnv where
  pathExists : String → Bool
  commitResult : Except String CommitOutcome

/-- app.py lines 134-159 (the function never mutates `config`). -/
def commit_and_push_changes (cfg : Config) (env : PushEnv) : Bool × String :=
  if falsyStr cfg.hugo_repo_path ||
      !env.pathExists (cfg.hugo_repo_path.getD "") then
    (false, "No working directory found")
  else
    match env.commitResult with
    | .error e => (false, "Git commit/push error: " ++ e)
    | .ok .notDirty => (true, "No changes to commit")
    | .ok .pushed => (true, "Changes committed and pushed successfully")

/-- Environment of one `clear_cached_repo` call: `rmtreeResult` models
`shutil.rmtree(working_dir)`. -/
structure ClearEnv where
  pathExists : String → Bool
  rmtreeResult : Except String Unit

/-- app.py lines 77-87 (the function never mutates `config`). -/
def clear_cached_repo (cfg : Config) (env : ClearEnv) : Bool × String :=
  if env.pathExists cfg.working_dir then
    match env.rmtreeResult with
    | .error e => (false, "Error clearing repository cache: " ++ e)
    | .ok () => (true, "Repository cache cleared")
  else (true, "No cached repository to clear")

/-- The reset of lines 979-982: `hugo_repo_path`, `hugo_site_built` and
`hugo_public_dir` are cleared together. -/
def resetBuildState (cfg : Config) : Config :=
  { cfg with
    hugo_repo_path := none, hugo_site_built := false,
    hugo_public_dir := none }

/-- A `jsonify({'success': ..., 'message': ...})` payload. -/
abbrev Response := Bool × String

/-- The re-setup and rebuild of `api_clear_cache` after the reset
(lines 984-994). -/
def afterClear (cfg : Config) (envG : GitEnv) (envB : BuildEnv) :
    Config × Response :=
  let s := setup_git_repo cfg envG
  if !s.2.1 then
    (s.1, (false, "Cache cleared but failed to re-clone: " ++ s.2.2))
  else
    let b := build_hugo_site s.1 envB
    if !b.2.1 then
      (b.1, (false, "Re-cloned successfully but build failed: " ++ b.2.2))
    else (b.1, (true,
      "Repository cache cleared, re-cloned, and rebuilt successfully"))

/-- app.py lines 970-997, the `/admin/api/clear-cache` handler. -/
def api_clear_cache (cfg : Config) (envC : ClearEnv) (envG : GitEnv)
    (envB : BuildEnv) : Config × Response :=
  let c := clear_cached_repo cfg envC
  if !c.1 then (cfg, (false, c.2))
  else afterClear (resetBuildState cfg) envG envB

/-- Side effects of the save handler, in execution order. -/
inductive SaveEv
  | readOrig
  | patchComputed
  | wroteFile
  | buildTriggered
  | responded
deriving DecidableEq, BEq

/-- app.py lines 1019-1045, the `/admin/api/save/<file_path>` handler.
`writeResult` models the `open(full_path, 'wb')` write; the event list records
the order of the side effects (the original-file read happens inside
`preserve_frontmatter_format`; an escaping exception is answered by the
`except` clause of line 1044 without a build). -/
def api_save_file (cfg : Config) (origContent? : Option Chars)
    (origKeys? : Option (List Chars)) (fm : List (Chars × Chars))
    (content : Chars) (writeResult : Except String Unit) (envB : BuildEnv) :
    Config × Response × List SaveEv :=
  match preserve_frontmatter_format origContent? origKeys? fm content with
  | .error _ =>
    (cfg, (false, "Post got multiple values for argument content"),
      [SaveEv.readOrig, SaveEv.responded])
  | .ok _ =>
    match writeResult with
    | .error e =>
      (cfg, (false, e),
        [SaveEv.readOrig, SaveEv.patchComputed, SaveEv.responded])
    | .ok () =>
      let b := build_hugo_site cfg envB
      (b.1, (true, "File saved successfully"),
        [SaveEv.readOrig, SaveEv.patchComputed, SaveEv.wroteFile,
          SaveEv.buildTriggered, SaveEv.responded])

/-- Side effects of the create handler. -/
inductive CreateAct
  | wroteNewFile
  | builtSite
deriving DecidableEq, BEq

/-- Lines 1055-1056: append the Markdown extension when absent. -/
def withMd (f : String) : String :=
  if strEndsWith f ".md" then f else f ++ ".md"

/-- `str(TypeError)` from `os.path.join(None, ...)` when no repository is
configured. -/
def pyNoneJoinError : String :=
  "unsupported operand type for os.path.join: None"

/-- app.py lines 1047-1099, the `/admin/api/create` handler.  `mkWrite`
models `os.makedirs` plus the `frontmatter.dumps` write of the new file; the
action list records whether a write and a rebuild happened. -/
def api_create_file (cfg : Config) (pathExists : String → Bool)
    (filename? : Option String) (mkWrite : Except String Unit)
    (envB : BuildEnv) : Config × Response × List CreateAct :=
  match filename? with
  | none => (cfg, (false, "Filename is required"), [])
  | some f0 =>
    if f0 = "" then (cfg, (false, "Filename is required"), [])
    else
      let f := withMd f0
      match cfg.hugo_repo_path with
      | none => (cfg, (false, pyNoneJoinError), [])
      | some repo =>
        let full := osJoin (osJoin repo "content") f
        if pathExists full then (cfg, (false, "File already exists"), [])
        else
          match mkWrite with
          | .error e => (cfg, (false, e), [])
          | .ok () =>
            let b := build_hugo_site cfg envB
            (b.1, (true, "File " ++ f ++ " created successfully"),
              [CreateAct.wroteNewFile, CreateAct.builtSite])

/-- A watchdog file-system event. -/
structure FsEvent where
  is_directory : Bool
  src_path : String

/-- `HugoRebuildHandler.on_modified` (app.py lines 43-46).  The returned
number is how many `build_hugo_site` calls the event triggers. -/
def on_modified (cfg : Config) (event : FsEvent) (envB : BuildEnv) :
    Config × Nat :=
  if !event.is_directory && strEndsWith event.src_path ".md" then
    ((build_hugo_site cfg envB).1, 1)
  else (cfg, 0)

/-- The conditional build of `serve_hugo_page` (lines 838-841). -/
def serve_build_step (cfg : Config) (envB : BuildEnv) : Config :=
  if cfg.hugo_site_built then cfg else (build_hugo_site cfg envB).1

/-- `config.update(load_config())` at startup (lines 1108-1110): when
`config.json` exists, the saved dictionary — written by `save_config(config)`
in the `/setup` handler, line 947 — overwrites every field. -/
def startupLoad (cfg : Config) (saved : Option Config) : Config :=
  saved.getD cfg

/-- The operations of the application that can touch `config`, with their
oracle environments. -/
inductive Op
  | build (envB : BuildEnv)
  | setup (envG : GitEnv)
  | commitPush (envP : PushEnv)
  | clearRepo (envC : ClearEnv)
  | clearCache (envC : ClearEnv) (envG : GitEnv) (envB : BuildEnv)
  | publish (envG : GitEnv) (envP : PushEnv)
  | saveFile (origContent? : Option Chars) (origKeys? : Option (List Chars))
      (fm : List (Chars × Chars)) (content : Chars)
      (writeResult : Except String Unit) (envB : BuildEnv)
  | createFile (pathExists : String → Bool) (filename? : Option String)
      (mkWrite : Except String Unit) (envB : BuildEnv)
  | servePage (envB : BuildEnv)
  | loadSaved (saved : Option Config)

/-- Effect of each operation on `config`. -/
def execOp (cfg : Config) : Op → Config
  | .build e => (build_hugo_site cfg e).1
  | .setup e => (setup_git_repo cfg e).1
  | .commitPush _ => cfg
  | .clearRepo _ => cfg
  | .clearCache c g b => (api_clear_cache cfg c g b).1
  | .publish g _ => (setup_git_repo cfg g).1
  | .saveFile o k f c w b => (api_save_file cfg o k f c w b).1
  | .createFile pe f mw b => (api_create_file cfg pe f mw b).1
  | .servePage b => serve_build_step cfg b
  | .loadSaved s => startupLoad cfg s

/-- The hugo subprocess of this environment exited with code 0. -/
def buildEnvZero (e : BuildEnv) : Bool :=
  match e.hugoRun with
  | .ok (rc, _, _) => rc == 0
  | .error _ => false

/-- The operation contains a `build_hugo_site` call whose subprocess exited
with code 0. -/
def opRanZeroBuild : Op → Bool
  | .build e => buildEnvZero e
  | .clearCache _ _ e => buildEnvZero e
  | .saveFile _ _ _ _ _ e => buildEnvZero e
  | .createFile _ _ _ e => buildEnvZero e
  | .servePage e => buildEnvZero e
  | _ => false

/-- The operation is the startup load of a saved configuration whose
`hugo_site_built` field is `True`. -/
def opLoadsBuiltTrue : Op → Bool
  | .loadSaved (some s) => s.hugo_site_built
  | _ => false

/-- All preconditions of a flag-setting `build_hugo_site` call hold. -/
def buildSucceeds (cfg : Config) (e : BuildEnv) : Bool :=
  !falsyStr cfg.hugo_repo_path &&
    e.pathExists (cfg.hugo_repo_path.getD "") && buildEnvZero e

/-! ## Spec-side definitions

These follow the wording of the claims, to be compared with the definitions
translated from the code. -/

/-- Claim C2 as stated: the quoting-style rule applied to the new value of a
key present in both the original front matter and the new mapping — wrap in
double quotes when the original value part has one, strip surrounding double
quotes when it has none, copy verbatim otherwise. -/
def quoteStyleSpec (vp nv : Chars) : Chars :=
  if vp.contains '"' && !(nv.head? == some '"' && nv.getLast? == some '"') then
    '"' :: (nv ++ ['"'])
  else if !vp.contains '"' &&
      (nv.head? == some '"' && nv.getLast? == some '"') then
    (nv.drop 1).dropLast
  else nv

/-- The date-preservation adjustment named by the amended claim C2: for the
key `date` present in the original metadata, when the original value stripped
of whitespace and surrounding double quotes has at most ten characters and the
new value contains `GMT`, the original value replaces the new one. -/
def dateKeepSpec (origKeys : List Chars) (key vp nv : Chars) : Chars :=
  if key == "date".data && origKeys.contains key then
    let odv := pyStripQuotes (pyStrip vp)
    if decide (odv.length ≤ 10) && containsSub "GMT".data nv then odv else nv
  else nv

/-- Claim C1 as stated, per line: a line whose key is in the new mapping is
rewritten keeping the original spacing between the colon and the value; a
line with a colon and an absent key is copied; a non-empty line without a
colon is copied; an empty line is dropped. -/
def specC1Line (origKeys : List Chars) (fm : List (Chars × Chars))
    (line : Chars) : Option Chars :=
  if line.contains ':' then
    let key := keyOf line
    match fmLookup fm key with
    | some nv =>
      some (key ++ ':' :: ((valuePartOf line).takeWhile pyIsSpace ++
        renderValue origKeys key (valuePartOf line) nv))
    | none => some line
  else if line.isEmpty then none
  else some line

/-- Claim C1 as stated: original lines in order, then the keys new to the
original metadata appended as key, colon, space, value. -/
def specC1Lines (origKeys : List Chars) (fm : List (Chars × Chars))
    (fmRaw : Chars) : List Chars :=
  (splitNl fmRaw).filterMap (specC1Line origKeys fm) ++
    (fm.filter fun kv => !origKeys.contains kv.1).map fun kv =>
      kv.1 ++ ':' :: ' ' :: kv.2

/-- Amended claim C1, per line: as stated, except that a line without a colon
is copied only when it has a non-whitespace character (blank lines are
dropped), and the preserved spacing falls back to a single space when the
original value part is blank. -/
def specC1LineAmended (origKeys : List Chars) (fm : List (Chars × Chars))
    (line : Chars) : Option Chars :=
  if line.contains ':' then
    let key := keyOf line
    match fmLookup fm key with
    | some nv =>
      some (key ++ ':' :: (spacingOf (valuePartOf line) ++
        renderValue origKeys key (valuePartOf line) nv))
    | none => some line
  else if (pyStrip line).isEmpty then none
  else some line

/-- Amended claim C1: original lines in order, then the keys new to the
original metadata appended as key, colon, space, value — the value wrapped in
double quotes unless it is a non-empty string of digits. -/
def specC1LinesAmended (origKeys : List Chars) (fm : List (Chars × Chars))
    (fmRaw : Chars) : List Chars :=
  (splitNl fmRaw).filterMap (specC1LineAmended origKeys fm) ++
    (fm.filter fun kv => !origKeys.contains kv.1).map fun kv =>
      kv.1 ++ ':' :: ' ' :: appendValue kv.2

/-! ## Helper lemmas -/

theorem isPrefixOf_self (l : Chars) : l.isPrefixOf l = true := by
  induction l with
  | nil => rfl
  | cons c t ih => simp [List.isPrefixOf, ih]

theorem containsSub_refl (n : Chars) : containsSub n n = true := by
  cases n with
  | nil => rfl
  | cons c t => simp [containsSub, isPrefixOf_self]

theorem containsSub_append_self (pre n : Chars) :
    containsSub n (pre ++ n) = true := by
  induction pre with
  | nil => simpa using containsSub_refl n
  | cons c t ih => simp [containsSub, ih]

theorem strContains_append (a b : String) : strContains (a ++ b) b = true := by
  simp [strContains, String.data_append, containsSub_append_self]

/-! ## Claim theorems -/

/-- Claim C4 (confirmed): with a configured repository path that exists and a
subprocess run that completes, `build_hugo_site` fails with a message
containing the stderr of the subprocess exactly when the exit code is
nonzero, and on exit code 0 it succeeds with the fixed message and points
`hugo_public_dir` at the `public` subdirectory. -/
theorem c4_build_exit_code (cfg : Config) (env : BuildEnv) (p : String)
    (rc : Int) (out err : String) (hp : cfg.hugo_repo_path = some p)
    (hne : p ≠ "") (hex : env.pathExists p = true)
    (hrun : env.hugoRun = .ok (rc, out, err)) :
    ((build_hugo_site cfg env).2.1 = false ↔ rc ≠ 0) ∧
    (rc ≠ 0 → strContains (build_hugo_site cfg env).2.2 err = true) ∧
    (rc = 0 → build_hugo_site cfg env =
      ({ cfg with
          hugo_public_dir := some (osJoin p "public"),
          hugo_site_built := true },
        true, "Hugo site built successfully")) := by
  have hfp : falsyStr (some p) = false := by
    simp [falsyStr, hne]
  by_cases hrc : rc = 0
  · subst hrc
    simp [build_hugo_site, hfp, hp, hex, hrun]
  · simp [build_hugo_site, hfp, hp, hex, hrun, hrc, strContains_append]

theorem c4_witness :
    strContains (build_hugo_site
      { initialConfig with hugo_repo_path := some "/repo" }
      { pathExists := fun _ => true,
        hugoRun := .ok (1, "", "boom") }).2.2 "boom" = true :=
  (c4_build_exit_code _ _ "/repo" 1 "" "boom" rfl (by decide) rfl rfl).2.1
    (by decide)

/-- Claim C6 (confirmed): each of `setup_git_repo`, `commit_and_push_changes`
and `build_hugo_site` turns an exception raised by its try-block — modelled
by the `.error` case of its oracle — into a `(False, message)` pair whose
message embeds the stringified exception; the model functions are total, so
nothing propagates to the caller. -/
theorem c6_exceptions_stringified :
    (∀ (cfg : Config) (env : GitEnv) (e : String),
        falsyStr cfg.git_repo_url = false → env.syncResult = .error e →
        setup_git_repo cfg env = (cfg, false, "Git setup error: " ++ e)) ∧
    (∀ (cfg : Config) (env : PushEnv) (e : String),
        falsyStr cfg.hugo_repo_path = false →
        env.pathExists (cfg.hugo_repo_path.getD "") = true →
        env.commitResult = .error e →
        commit_and_push_changes cfg env =
          (false, "Git commit/push error: " ++ e)) ∧
    (∀ (cfg : Config) (env : BuildEnv) (e : String),
        falsyStr cfg.hugo_repo_path = false →
        env.pathExists (cfg.hugo_repo_path.getD "") = true →
        env.hugoRun = .error e →
        build_hugo_site cfg env = (cfg, false, "Build error: " ++ e)) := by
  refine ⟨?_, ?_, ?_⟩
  · intro cfg env e hf hs
    simp [setup_git_repo, hf, hs]
  · intro cfg env e hf hex hc
    simp [commit_and_push_changes, hf, hex, hc]
  · intro cfg env e hf hex hr
    simp [build_hugo_site, hf, hex, hr]

theorem c6_witness :
    setup_git_repo { initialConfig with git_repo_url := some "u" }
        { pathExists := fun _ => true, syncResult := .error "x" } =
      ({ initialConfig with git_repo_url := some "u" }, false,
        "Git setup error: " ++ "x") ∧
    commit_and_push_changes { initialConfig with hugo_repo_path := some "/r" }
        { pathExists := fun _ => true, commitResult := .error "y" } =
      (false, "Git commit/push error: " ++ "y") ∧
    build_hugo_site { initialConfig with hugo_repo_path := some "/r" }
        { pathExists := fun _ => true, hugoRun := .error "z" } =
      ({ initialConfig with hugo_repo_path := some "/r" }, false,
        "Build error: " ++ "z") :=
  ⟨c6_exceptions_stringified.1 _ _ "x" rfl rfl,
    c6_exceptions_stringified.2.1 _ _ "y" rfl rfl rfl,
    c6_exceptions_stringified.2.2 _ _ "z" rfl rfl rfl⟩

/-- Claim C8 (confirmed): an `on_modified` event triggers exactly one
`build_hugo_site` call when it is not a directory event and its path ends in
`.md`, and no build otherwise. -/
theorem c8_watcher_rebuild (cfg : Config) (event : FsEvent)
    (envB : BuildEnv) :
    ((on_modified cfg event envB).2 = 1 ↔
      (event.is_directory = false ∧
        strEndsWith event.src_path ".md" = true)) ∧
    ((on_modified cfg event envB).2 = 0 ↔
      ¬(event.is_directory = false ∧
        strEndsWith event.src_path ".md" = true)) := by
  unfold on_modified
  by_cases h1 : event.is_directory = true
  · simp [h1]
  · by_cases h2 : strEndsWith event.src_path ".md" = true <;>
      simp [h1, h2]

/-- Claim C9 (confirmed): the create handler appends `.md` to a filename that
lacks it, and when the resulting path below the content directory exists it
answers `File already exists`, performs no write and no rebuild, and leaves
`config` unchanged. -/
theorem c9_create_existing (cfg : Config) (pE : String → Bool) (f0 : String)
    (mw : Except String Unit) (envB : BuildEnv) (r : String)
    (hr : cfg.hugo_repo_path = some r) (h0 : f0 ≠ "")
    (hex : pE (osJoin (osJoin r "content") (withMd f0)) = true) :
    api_create_file cfg pE (some f0) mw envB =
      (cfg, (false, "File already exists"), ([] : List CreateAct)) ∧
    (strEndsWith f0 ".md" = false → withMd f0 = f0 ++ ".md") ∧
    (strEndsWith f0 ".md" = true → withMd f0 = f0) := by
  refine ⟨?_, ?_, ?_⟩
  · simp [api_create_file, h0, hr, hex]
  · intro h
    simp [withMd, h]
  · intro h
    simp [withMd, h]

theorem build_built_eq (cfg : Config) (env : BuildEnv) :
    (build_hugo_site cfg env).1.hugo_site_built =
      (cfg.hugo_site_built || buildSucceeds cfg env) := by
  by_cases hf : falsyStr cfg.hugo_repo_path = true
  · simp [build_hugo_site, buildSucceeds, hf]
  · by_cases he : env.pathExists (cfg.hugo_repo_path.getD "") = true
    · cases hr : env.hugoRun with
      | error e =>
        simp [build_hugo_site, buildSucceeds, buildEnvZero, hf, he, hr]
      | ok t =>
        obtain ⟨rc, out, err⟩ := t
        by_cases hrc : rc = 0 <;>
          simp [build_hugo_site, buildSucceeds, buildEnvZero, hf, he, hr, hrc]
    · simp [build_hugo_site, buildSucceeds, hf, he]

theorem build_built_or {cfg : Config} {env : BuildEnv}
    (h : (build_hugo_site cfg env).1.hugo_site_built = true) :
    cfg.hugo_site_built = true ∨ buildEnvZero env = true := by
  rw [build_built_eq] at h
  rcases (Bool.or_eq_true _ _).mp h with h' | h'
  · exact Or.inl h'
  · exact Or.inr ((Bool.and_eq_true _ _).mp h').2

theorem setup_preserves_built (cfg : Config) (env : GitEnv) :
    (setup_git_repo cfg env).1.hugo_site_built = cfg.hugo_site_built := by
  by_cases hf : falsyStr cfg.git_repo_url = true
  · simp [setup_git_repo, hf]
  · cases hs : env.syncResult with
    | error e => simp [setup_git_repo, hf, hs]
    | ok u =>
      simp [setup_git_repo, hf, hs]
      split <;> simp

theorem afterClear_built_or {cfg : Config} {envG : GitEnv} {envB : BuildEnv}
    (h : (afterClear cfg envG envB).1.hugo_site_built = true) :
    cfg.hugo_site_built = true ∨ buildEnvZero envB = true := by
  unfold afterClear at h
  by_cases hs : (setup_git_repo cfg envG).2.1 = true
  · simp only [hs, Bool.not_true] at h
    rw [if_neg (by simp)] at h
    split at h <;>
    · rcases build_built_or h with h' | h'
      · rw [setup_preserves_built] at h'
        exact Or.inl h'
      · exact Or.inr h'
  · rw [Bool.not_eq_true] at hs
    simp only [hs, Bool.not_false] at h
    rw [if_pos trivial] at h
    rw [setup_preserves_built] at h
    exact Or.inl h

theorem c9_witness :
    api_create_file { initialConfig with hugo_repo_path := some "/repo" }
        (fun _ => true) (some "post") (.ok ())
        { pathExists := fun _ => true, hugoRun := .error "n" } =
      ({ initialConfig with hugo_repo_path := some "/repo" },
        (false, "File already exists"), ([] : List CreateAct)) :=
  (c9_create_existing _ _ "post" _ _ "/repo" rfl (by decide) rfl).1

/-- Counterexample to claim C5 as stated: the startup configuration load
(`config.update(load_config())`, app.py line 1110) is an operation that sets
`hugo_site_built` to `True` — restoring it from a `config.json` written by
`save_config(config)` in the `/setup` handler — although it contains no
`build_hugo_site` call and no subprocess ran. -/
theorem c5_counterexample :
    (execOp initialConfig (Op.loadSaved (some
      { initialConfig with hugo_site_built := true }))).hugo_site_built =
        true ∧
    opRanZeroBuild (Op.loadSaved (some
      { initialConfig with hugo_site_built := true })) = false ∧
    initialConfig.hugo_site_built = false :=
  ⟨rfl, rfl, rfl⟩

/-- Claim C5 (corrected): `build_hugo_site` raises the flag exactly when its
preconditions hold and the subprocess exits with code 0; every modelled
operation that raises the flag either contains such a build or is the startup
load of a saved configuration whose flag is already `True`; and the
clear-cache handler resets the flag — together with `hugo_repo_path` and
`hugo_public_dir` — before re-cloning. -/
theorem c5_built_flag :
    (∀ (cfg : Config) (env : BuildEnv),
        (build_hugo_site cfg env).1.hugo_site_built =
          (cfg.hugo_site_built || buildSucceeds cfg env)) ∧
    (∀ (cfg : Config) (op : Op),
        (execOp cfg op).hugo_site_built = true →
        cfg.hugo_site_built = true ∨ opRanZeroBuild op = true ∨
          opLoadsBuiltTrue op = true) ∧
    (∀ (cfg : Config) (envC : ClearEnv) (envG : GitEnv) (envB : BuildEnv),
        (clear_cached_repo cfg envC).1 = true →
        api_clear_cache cfg envC envG envB =
          afterClear (resetBuildState cfg) envG envB ∧
        (resetBuildState cfg).hugo_site_built = false ∧
        (resetBuildState cfg).hugo_repo_path = none ∧
        (resetBuildState cfg).hugo_public_dir = none) := by
  refine ⟨build_built_eq, ?_, ?_⟩
  · intro cfg op h
    cases op with
    | build e =>
      rcases build_built_or h with h' | h'
      · exact Or.inl h'
      · exact Or.inr (Or.inl h')
    | setup e =>
      simp only [execOp] at h
      rw [setup_preserves_built] at h
      exact Or.inl h
    | commitPush e => exact Or.inl h
    | clearRepo e => exact Or.inl h
    | clearCache c g b =>
      simp only [execOp, api_clear_cache] at h
      split at h
      · exact Or.inl h
      · rcases afterClear_built_or h with h' | h'
        · exact absurd h' (by simp [resetBuildState])
        · exact Or.inr (Or.inl h')
    | publish g p =>
      simp only [execOp] at h
      rw [setup_preserves_built] at h
      exact Or.inl h
    | saveFile o k f c w b =>
      simp only [execOp, api_save_file] at h
      repeat' split at h
      all_goals
        first
          | exact Or.inl h
          | (rcases build_built_or h with h' | h'
             · exact Or.inl h'
             · exact Or.inr (Or.inl h'))
    | createFile pe f mw b =>
      simp only [execOp, api_create_file] at h
      repeat' split at h
      all_goals
        first
          | exact Or.inl h
          | (rcases build_built_or h with h' | h'
             · exact Or.inl h'
             · exact Or.inr (Or.inl h'))
    | servePage b =>
      simp only [execOp, serve_build_step] at h
      split at h
      · exact Or.inl h
      · rcases build_built_or h with h' | h'
        · exact Or.inl h'
        · exact Or.inr (Or.inl h')
    | loadSaved s =>
      cases s with
      | none => exact Or.inl h
      | some sv =>
        simp only [execOp, startupLoad, Option.getD] at h
        exact Or.inr (Or.inr h)
  · intro cfg envC envG envB hc
    refine ⟨?_, rfl, rfl, rfl⟩
    simp [api_clear_cache, hc]

theorem c5_witness :
    initialConfig.hugo_site_built = true ∨
    opRanZeroBuild (Op.loadSaved (some
      { initialConfig with hugo_site_built := true })) = true ∨
    opLoadsBuiltTrue (Op.loadSaved (some
      { initialConfig with hugo_site_built := true })) = true :=
  c5_built_flag.2.1 initialConfig _ rfl

/-- Counterexample to claim C7 as stated: in the trace of a successful save
request the format patch comes strictly before the file write — the handler
computes `preserve_frontmatter_format` (line 1034) and only then writes the
file (lines 1037-1038) — so the claimed order read/write, then patch, is
false. -/
theorem c7_counterexample :
    List.indexOf SaveEv.patchComputed
        (api_save_file initialConfig (some "---\na: b\n---\nx".data)
          (some ["a".data]) [("a".data, "c".data)] "x".data (.ok ())
          { pathExists := fun _ => false, hugoRun := .error "e" }).2.2 <
      List.indexOf SaveEv.wroteFile
        (api_save_file initialConfig (some "---\na: b\n---\nx".data)
          (some ["a".data]) [("a".data, "c".data)] "x".data (.ok ())
          { pathExists := fun _ => false, hugoRun := .error "e" }).2.2 := by
  decide

/-- Claim C7 (corrected): every save request answers only after all its other
steps — the trace always ends with the response — and a request on which no
exception occurs runs, in order: original-file read, format patch, file
write, build trigger, response. -/
theorem c7_save_order (cfg : Config) (o : Option Chars)
    (k : Option (List Chars)) (fm : List (Chars × Chars)) (content : Chars)
    (w : Except String Unit) (envB : BuildEnv) :
    ((api_save_file cfg o k fm content w envB).2.2).getLast? =
      some SaveEv.responded ∧
    (∀ s, preserve_frontmatter_format o k fm content = .ok s →
      w = .ok () →
      (api_save_file cfg o k fm content w envB).2.2 =
        [SaveEv.readOrig, SaveEv.patchComputed, SaveEv.wroteFile,
          SaveEv.buildTriggered, SaveEv.responded]) := by
  cases hpre : preserve_frontmatter_format o k fm content with
  | error u =>
    refine ⟨by simp [api_save_file, hpre], ?_⟩
    intro s hs hw
    cases hs
  | ok s0 =>
    cases w with
    | error e =>
      refine ⟨by simp [api_save_file, hpre], ?_⟩
      intro s hs hw
      cases hw
    | ok u =>
      cases u
      exact ⟨by simp [api_save_file, hpre], fun s hs hw => by
        simp [api_save_file, hpre]⟩

theorem c7_witness :
    (api_save_file initialConfig (some "---\na: b\n---\nx".data)
      (some ["a".data]) [("a".data, "c".data)] "x".data (.ok ())
      { pathExists := fun _ => false, hugoRun := .error "e" }).2.2 =
      [SaveEv.readOrig, SaveEv.patchComputed, SaveEv.wroteFile,
        SaveEv.buildTriggered, SaveEv.responded] :=
  (c7_save_order initialConfig _ _ _ _ _ _).2 _ rfl rfl

/-- Counterexample to claim C1 as stated, on a front matter with a blank
value, a whitespace-only line and a new key: the code drops the
whitespace-only line (the claim copies it, being a non-empty line without a
colon), writes a single space after `title:` (the claim keeps the empty
original spacing), and quotes the appended value `bob` (the claim appends it
verbatim). -/
theorem c1_counterexample :
    preserve_frontmatter_format (some "---\ntitle:\n   \n---\nbody".data)
        (some ["title".data])
        [("title".data, "T".data), ("author".data, "bob".data)]
        "body".data ≠
      .ok (assemble "---\ntitle:\n   \n---\nbody".data
        (specC1Lines ["title".data]
          [("title".data, "T".data), ("author".data, "bob".data)]
          (fmRawOf "---\ntitle:\n   \n---\nbody".data))
        (pyNorm "body".data)) := by
  intro h
  exact absurd (Except.ok.inj h) (by decide)

/-- Claim C1 (corrected): on the format-preserving path the reconstructed
file is the amended line discipline — original lines in order; lines with a
key in the new mapping rewritten with the original (or defaulted) spacing;
other colon lines copied; non-blank colon-free lines copied and blank lines
dropped; keys new to the original metadata appended as key, colon, space,
value with non-digit values double-quoted — assembled between the original
delimiters around the normalized new content. -/
theorem c1_format_preserving (orig : Chars) (origKeys : List Chars)
    (fm : List (Chars × Chars)) (nc : Chars)
    (h1 : marker.isPrefixOf orig = true)
    (h2 : 3 ≤ (pySplit2 marker orig).length) :
    preserve_frontmatter_format (some orig) (some origKeys) fm nc =
      .ok (assemble orig (specC1LinesAmended origKeys fm (fmRawOf orig))
        (pyNorm nc)) := by
  show (if marker.isPrefixOf orig ∧ 3 ≤ (pySplit2 marker orig).length then
      Except.ok (preservePath orig origKeys fm (pyNorm nc))
    else fallbackDump fm (pyNorm nc)) = _
  rw [if_pos ⟨h1, h2⟩]
  rfl

theorem c1_witness :
    marker.isPrefixOf "---\nt: a\n---\nb".data = true ∧
    preserve_frontmatter_format (some "---\nt: a\n---\nb".data)
        (some ["t".data]) [("t".data, "c".data)] "b".data =
      .ok (assemble "---\nt: a\n---\nb".data
        (specC1LinesAmended ["t".data] [("t".data, "c".data)]
          (fmRawOf "---\nt: a\n---\nb".data)) (pyNorm "b".data)) :=
  ⟨by decide, c1_format_preserving _ _ _ _ (by decide) (by decide)⟩

/-- Counterexample to claim C2 as stated: for the key `date`, present in the
original metadata with the short original value `2020-01-01`, and the new
value `Wed, 01 Jan 2020 00:00:00 GMT`, the code writes the original value
back instead of applying the quoting rules to the new value. -/
theorem c2_counterexample :
    renderValue ["date".data] "date".data " 2020-01-01".data
        "Wed, 01 Jan 2020 00:00:00 GMT".data ≠
      quoteStyleSpec " 2020-01-01".data
        "Wed, 01 Jan 2020 00:00:00 GMT".data := by
  decide

/-- Claim C2 (corrected): the value written for a key present in both the
original front matter and the new mapping is the stated quoting rule applied
to the effective new value — the mapping value after the date-preservation
adjustment — and this is exactly what the line rewriting of the
format-preserving path emits. -/
theorem c2_quote_style :
    (∀ (origKeys : List Chars) (key vp nv : Chars),
        renderValue origKeys key vp nv =
          quoteStyleSpec vp (dateKeepSpec origKeys key vp nv)) ∧
    (∀ (origKeys : List Chars) (fm : List (Chars × Chars)) (line nv : Chars),
        line.contains ':' = true →
        fmLookup fm (keyOf line) = some nv →
        processFmLine origKeys fm line =
          some (keyOf line ++ ':' :: (spacingOf (valuePartOf line) ++
            quoteStyleSpec (valuePartOf line)
              (dateKeepSpec origKeys (keyOf line) (valuePartOf line) nv)))) := by
  refine ⟨fun _ _ _ _ => rfl, ?_⟩
  intro origKeys fm line nv hc hl
  unfold processFmLine
  rw [if_pos hc]
  show (match fmLookup fm (keyOf line) with
    | some nv =>
      some (keyOf line ++ ':' :: (spacingOf (valuePartOf line) ++
        renderValue origKeys (keyOf line) (valuePartOf line) nv))
    | none => some line) = _
  rw [hl]
  rfl

theorem c2_witness :
    processFmLine [] [("title".data, "x".data)] "title: y".data =
      some (keyOf "title: y".data ++ ':' ::
        (spacingOf (valuePartOf "title: y".data) ++
          quoteStyleSpec (valuePartOf "title: y".data)
            (dateKeepSpec [] (keyOf "title: y".data)
              (valuePartOf "title: y".data) "x".data))) :=
  c2_quote_style.2 [] [("title".data, "x".data)] "title: y".data "x".data
    (by decide) (by decide)

/-- Claim C3 (code bug): with an unreadable original file and the key
`content` in the new mapping, the fallback `frontmatter.Post` construction
raises `TypeError` inside the `except` handler and the exception escapes
`preserve_frontmatter_format` — against the claim (and the code's own
comment, `Fallback to frontmatter.dumps if anything goes wrong`).  Without
that key the same call returns the default serialization as claimed. -/
theorem c3_content_key_raises :
    preserve_frontmatter_format none none [("content".data, "x".data)]
        "body".data = .error () ∧
    fallbackDump [("content".data, "x".data)] "body".data = .error () ∧
    preserve_frontmatter_format none none [("title".data, "x".data)]
        "body".data =
      .ok (frontmatterDumps [("title".data, "x".data)] "body".data) :=
  ⟨rfl, rfl, rfl⟩

theorem cr_not_mem_pyNorm (l : Chars) : '\r' ∉ pyNorm l := by
  intro h
  rw [pyNorm, List.mem_map] at h
  obtain ⟨a, _, ha⟩ := h
  by_cases hc : a = '\r'
  · rw [if_pos hc] at ha
    exact absurd ha (by decide)
  · rw [if_neg hc] at ha
    exact hc ha

theorem replCRLF_ne_nil : ∀ {l : Chars}, l ≠ [] → replCRLF l ≠ [] := by
  intro l h
  induction l using replCRLF.induct with
  | case1 rest ih => simp [replCRLF]
  | case2 c rest hg ih => simp [replCRLF]
  | case3 => exact absurd rfl h

theorem getLast?_replCRLF {c : Char} (hc : c ≠ '\n') :
    ∀ {l : Chars}, l.getLast? = some c → (replCRLF l).getLast? = some c := by
  intro l
  induction l using replCRLF.induct with
  | case1 rest ih =>
    intro h
    rw [replCRLF.eq_1]
    cases rest with
    | nil =>
      rw [List.getLast?_cons_cons] at h
      simp at h
      exact absurd h.symm hc
    | cons a t =>
      rw [List.getLast?_cons_cons, List.getLast?_cons_cons] at h
      cases hm : replCRLF (a :: t) with
      | nil => exact absurd hm (replCRLF_ne_nil (by simp))
      | cons b bs =>
        rw [List.getLast?_cons_cons, ← hm]
        exact ih h
  | case2 d rest hg ih =>
    intro h
    rw [replCRLF.eq_2 _ _ hg]
    cases rest with
    | nil =>
      simp at h
      simp [replCRLF, h]
    | cons a t =>
      rw [List.getLast?_cons_cons] at h
      cases hm : replCRLF (a :: t) with
      | nil => exact absurd hm (replCRLF_ne_nil (by simp))
      | cons b bs =>
        rw [List.getLast?_cons_cons, ← hm]
        exact ih h
  | case3 =>
    intro h
    simp at h

theorem getLast?_pyNorm {c : Char} (h1 : c ≠ '\n') (h2 : c ≠ '\r')
    {l : Chars} (h : l.getLast? = some c) :
    (pyNorm l).getLast? = some c := by
  unfold pyNorm
  rw [← List.head?_reverse, ← List.map_reverse, List.head?_map,
    List.head?_reverse, getLast?_replCRLF h1 h]
  simp [h2]

theorem head?_dropWhile_mem {p : Char → Bool} :
    ∀ {l : Chars} {c : Char}, (l.dropWhile p).head? = some c → c ∈ l := by
  intro l
  induction l with
  | nil =>
    intro c h
    simp [List.dropWhile] at h
  | cons a t ih =>
    intro c h
    rw [List.dropWhile_cons] at h
    by_cases hp : p a = true
    · rw [if_pos hp] at h
      exact List.mem_cons_of_mem a (ih h)
    · rw [if_neg hp, List.head?_cons] at h
      simp at h
      subst h
      exact List.mem_cons_self a t

theorem head?_dropWhile_not {p : Char → Bool} :
    ∀ {l : Chars} {c : Char}, (l.dropWhile p).head? = some c → p c = false := by
  intro l
  induction l with
  | nil =>
    intro c h
    simp [List.dropWhile] at h
  | cons a t ih =>
    intro c h
    rw [List.dropWhile_cons] at h
    by_cases hp : p a = true
    · rw [if_pos hp] at h
      exact ih h
    · rw [if_neg hp, List.head?_cons] at h
      simp at h
      subst h
      rw [Bool.not_eq_true] at hp
      exact hp

theorem rstrip_assembled_last (fmJ nc' : Chars) (hnc : '\r' ∉ nc') :
    ∃ d, (rstripNl (marker ++ fmJ ++ "\n---\n\n".data ++ nc')).getLast? =
      some d ∧ d ≠ '\n' ∧ d ≠ '\r' := by
  unfold rstripNl dropRightWhile
  rw [List.getLast?_reverse]
  rw [List.reverse_append, List.reverse_append, List.reverse_append]
  rw [List.dropWhile_append]
  by_cases hA : ((nc'.reverse).dropWhile (· == '\n')).isEmpty = true
  · rw [if_pos hA, List.dropWhile_append]
    rw [if_neg (by decide)]
    refine ⟨'-', ?_, by decide, by decide⟩
    rw [show ("\n---\n\n".data.reverse).dropWhile (· == '\n') =
      '-' :: "--\n".data from by decide]
    rw [List.cons_append, List.head?_cons]
  · rw [if_neg hA]
    cases hd : (nc'.reverse).dropWhile (· == '\n') with
    | nil =>
      rw [hd] at hA
      exact absurd rfl hA
    | cons a as =>
      rw [List.cons_append, List.head?_cons]
      refine ⟨a, rfl, ?_, ?_⟩
      · have hnot := head?_dropWhile_not (p := (· == '\n'))
          (l := nc'.reverse) (c := a) (by rw [hd]; rfl)
        intro hEq
        rw [hEq] at hnot
        simp at hnot
      · have hmem := head?_dropWhile_mem (p := (· == '\n'))
          (l := nc'.reverse) (c := a) (by rw [hd]; rfl)
        rw [List.mem_reverse] at hmem
        intro hEq
        rw [hEq] at hmem
        exact hnc hmem

/-- Claim C10 (confirmed): on the format-preserving path the returned string
contains no carriage return (the result passes through the final newline
normalization), and when the original content did not end with a newline the
result does not end with a newline either. -/
theorem c10_no_carriage_return (orig : Chars) (origKeys : List Chars)
    (fm : List (Chars × Chars)) (nc : Chars)
    (h1 : marker.isPrefixOf orig = true)
    (h2 : 3 ≤ (pySplit2 marker orig).length) (r : Chars)
    (hr : preserve_frontmatter_format (some orig) (some origKeys) fm nc =
      .ok r) :
    '\r' ∉ r ∧ (orig.getLast? ≠ some '\n' → r.getLast? ≠ some '\n') := by
  have hstep : preserve_frontmatter_format (some orig) (some origKeys) fm nc =
      .ok (preservePath orig origKeys fm (pyNorm nc)) := by
    show (if marker.isPrefixOf orig ∧ 3 ≤ (pySplit2 marker orig).length then
        Except.ok (preservePath orig origKeys fm (pyNorm nc))
      else fallbackDump fm (pyNorm nc)) = _
    rw [if_pos ⟨h1, h2⟩]
  rw [hstep] at hr
  have hr' := Except.ok.inj hr
  subst hr'
  constructor
  · exact cr_not_mem_pyNorm _
  · intro hnl
    have hL : lastIsNl orig = false := by
      unfold lastIsNl
      rw [beq_eq_false_iff_ne]
      exact hnl
    show (pyNorm (if lastIsNl orig = true then
        marker ++ joinNl (codeFmLines origKeys fm (fmRawOf orig)) ++
          "\n---\n\n".data ++ pyNorm nc
      else rstripNl (marker ++ joinNl (codeFmLines origKeys fm (fmRawOf orig)) ++
          "\n---\n\n".data ++ pyNorm nc))).getLast? ≠ some '\n'
    rw [hL, if_neg (by simp)]
    obtain ⟨d, hd, hdn, hdr⟩ := rstrip_assembled_last
      (joinNl (codeFmLines origKeys fm (fmRawOf orig))) (pyNorm nc)
      (cr_not_mem_pyNorm nc)
    rw [getLast?_pyNorm hdn hdr hd]
    simp [hdn]

theorem c10_witness :
    '\r' ∉ preservePath "---\nt: a\n---\nbody".data ["t".data]
        [("t".data, "b".data)] (pyNorm "body".data) ∧
      (preservePath "---\nt: a\n---\nbody".data ["t".data]
        [("t".data, "b".data)] (pyNorm "body".data)).getLast? ≠ some '\n' :=
  ⟨(c10_no_carriage_return "---\nt: a\n---\nbody".data ["t".data]
      [("t".data, "b".data)] "body".data (by decide) (by decide) _ rfl).1,
    (c10_no_carriage_return "---\nt: a\n---\nbody".data ["t".data]
      [("t".data, "b".data)] "body".data (by decide) (by decide) _ rfl).2
      (by decide)⟩

end HugoCMS
